import Mathlib

/-!
Verification development for the ABSESpy repository snapshot.

The snapshot contains the project's documentation, packaging metadata
(`pyproject.toml`), a log-cleaning shell script (`remove-logs.sh`), a
Makefile, and auxiliary configuration, but not the Python source of the
`abses` package itself.  The parts of the framework that the claims
describe and that are not present in the snapshot are modelled from the
specification prose (each such definition says so in its doc comment);
everything else is embedded directly from the files of the snapshot.
-/

namespace ABSES

/-! ## The source tree and packaging metadata (from the snapshot itself) -/

/-- Kinds of files occurring in the supplied source tree, as determined by
reading each file.  `python` would mark a Python module; no file of the
snapshot has that kind. -/
inductive FileKind where
  | markdown
  | notebook
  | toml
  | yaml
  | makefile
  | shellScript
  | css
  | python
  deriving DecidableEq, Repr

/-- One file of the supplied source tree.  `path` is `none` for the files
delivered under `unnamed/` whose original names are unknown; their kind
was read off their content. -/
structure SourceFile where
  path : Option String
  kind : FileKind
  deriving DecidableEq, Repr

/-- The complete list of files in the supplied source tree. -/
def sourceTree : List SourceFile :=
  [ ⟨some ".obsidian/README.md", .markdown⟩
  , ⟨some ".pre-commit-config.yaml", .yaml⟩
  , ⟨some "CHANGELOG.md", .markdown⟩
  , ⟨some "README.md", .markdown⟩
  , ⟨some "README.zh-cn.md", .markdown⟩
  , ⟨some "RoadMap.md", .markdown⟩
  , ⟨some "docs/api/api.md", .markdown⟩
  , ⟨some "docs/docs/contribution.md", .markdown⟩
  , ⟨some "docs/docs/roadmap.md", .markdown⟩
  , ⟨some "docs/docs/user_guide.md", .markdown⟩
  , ⟨some "docs/examples/official/yellow_river_water_quota.md", .markdown⟩
  , ⟨some "docs/features/MoHuB.md", .markdown⟩
  , ⟨some "docs/features/features.md", .markdown⟩
  , ⟨some "docs/home/contributing.md", .markdown⟩
  , ⟨some "docs/home/contribution.md", .markdown⟩
  , ⟨some "docs/home/dependencies.md", .markdown⟩
  , ⟨some "docs/home/get_started.md", .markdown⟩
  , ⟨some "docs/home/guide_checklist.md", .markdown⟩
  , ⟨some "docs/index.md", .markdown⟩
  , ⟨some "docs/navigation.md", .markdown⟩
  , ⟨some "docs/paper/paper.md", .markdown⟩
  , ⟨some "docs/tutorial/beginner/get_started.ipynb", .notebook⟩
  , ⟨some "docs/tutorial/beginner/manage_parameters.ipynb", .notebook⟩
  , ⟨some "docs/tutorial/beginner/movement.ipynb", .notebook⟩
  , ⟨some "docs/tutorial/tutorial_guide_from_ABM.md", .markdown⟩
  , ⟨some "docs/tutorial/tutorial_guide_from_SES.md", .markdown⟩
  , ⟨some "docs/tutorial/user_guide.md", .markdown⟩
  , ⟨some "docs/wiki/concepts/emergence.md", .markdown⟩
  , ⟨some "docs/wiki/definition_ABM.md", .markdown⟩
  , ⟨some "docs/wiki/how_modeling.md", .markdown⟩
  , ⟨some "docs/wiki/wiki.md", .markdown⟩
  , ⟨some "mkdocs.yml", .yaml⟩
  , ⟨some "pyproject.toml", .toml⟩
  , ⟨none, .shellScript⟩   -- unnamed/part_000: remove-logs.sh
  , ⟨none, .css⟩           -- unnamed/part_001: Obsidian CSS settings snippet
  , ⟨none, .markdown⟩      -- unnamed/part_002
  , ⟨none, .makefile⟩      -- unnamed/part_003
  , ⟨none, .markdown⟩      -- unnamed/part_004
  , ⟨none, .markdown⟩      -- unnamed/part_005
  , ⟨none, .markdown⟩      -- unnamed/part_006
  , ⟨none, .markdown⟩      -- unnamed/part_007
  , ⟨none, .markdown⟩      -- unnamed/part_008
  , ⟨none, .markdown⟩      -- unnamed/part_009
  , ⟨none, .markdown⟩      -- unnamed/part_010
  , ⟨none, .markdown⟩      -- unnamed/part_011
  , ⟨none, .markdown⟩      -- unnamed/part_012
  , ⟨none, .markdown⟩      -- unnamed/part_013
  , ⟨none, .markdown⟩      -- unnamed/part_014
  , ⟨none, .markdown⟩      -- unnamed/part_015
  , ⟨none, .markdown⟩      -- unnamed/part_016
  , ⟨none, .markdown⟩      -- unnamed/part_017
  , ⟨none, .markdown⟩      -- unnamed/part_018
  , ⟨none, .markdown⟩      -- unnamed/part_019
  ]

/-- The `[tool.poetry]` packaging metadata of `pyproject.toml`. -/
structure PoetryMetadata where
  name : String
  version : String
  buildBackend : String
  deriving Repr

/-- `[tool.poetry]` of `pyproject.toml`: the built package is `abses`. -/
def poetryMetadata : PoetryMetadata :=
  { name := "abses"
  , version := "0.6.10"
  , buildBackend := "poetry.core.masonry.api" }

/-- A file can define (part of) a Python package only if it is Python
code. -/
def definesPythonPackage (f : SourceFile) : Bool :=
  f.kind = FileKind.python

/-- The names of the `[tool.poetry.dependencies]` entries of
`pyproject.toml`, in order. -/
def poetryDependencies : List String :=
  [ "python"
  , "netcdf4"
  , "hydra-core"
  , "mesa-geo"
  , "xarray"
  , "fiona"
  , "loguru"
  , "rioxarray"
  , "pendulum"
  , "geopandas"
  , "typing-extensions"
  , "fontawesome"
  , "seaborn"
  , "geocube"
  ]

/-! ## The `remove-logs.sh` shell script (from the snapshot itself)

The script first computes the set of directories containing `.log` files:
`find . -type f -name "*.log" | awk ... NF-- ... | sort -u` (the directory
component of every `.log` file found recursively, deduplicated).  It then
loops over these directories; for each it lists the depth-one `.log` files,
asks for a one-character confirmation (`read -n 1`), and on a reply
matching `^[Yy]$` runs `find "$dir" -maxdepth 1 -type f -name "*.log"
-exec rm {} +`, else prints a cancellation message.

The file system is modelled as a list of plain files plus a list of
directories; a path is a list of name components (so the model is the
script on path names free of the shell's word-splitting pathologies). -/

/-- A plain file: the components of its containing directory, and its
name. -/
structure FSFile where
  dir : List String
  name : String
  deriving DecidableEq, Repr

/-- A file system: plain files and directories.  The script only ever
runs `rm` (never `rm -r` or `rmdir`) on results of `find ... -type f`,
so directories are carried through unchanged. -/
structure FileSystem where
  files : List FSFile
  dirs : List (List String)
  deriving DecidableEq, Repr

/-- `find`'s basename glob `-name "*.log"`: the name ends in `.log`
(`*` may match the empty string, so the test is exactly a suffix test).
Stated over the name's character list. -/
def matchesLogGlob (name : String) : Bool :=
  name.data.reverse.take 4 == ".log".data.reverse

/-- The directories printed by the script's first `find`: the directory
of every `.log` file, recursively, deduplicated (`sort -u`). -/
def logDirs (files : List FSFile) : List (List String) :=
  ((files.filter (fun f => matchesLogGlob f.name)).map (fun f => f.dir)).dedup

/-- `read -n 1` gives a one-character reply; `[[ $REPLY =~ ^[Yy]$ ]]`
holds exactly for `y` and `Y`. -/
def confirms (reply : Char) : Bool :=
  reply = 'y' || reply = 'Y'

/-- `find "$dir" -maxdepth 1 -type f -name "*.log" -exec rm {} +`:
delete exactly the `.log` files whose directory is `d` itself
(`-maxdepth 1`, so files of subdirectories of `d` are untouched). -/
def deleteLogsAtDepthOne (d : List String) (files : List FSFile) : List FSFile :=
  files.filter (fun f => !(f.dir = d && matchesLogGlob f.name))

/-- The messages the loop body echoes per directory. -/
inductive ScriptMsg where
  | deleted (d : List String)
  | cancelled (d : List String)
  deriving DecidableEq, Repr

/-- The script's `for dir in $directories` loop.  Each iteration consumes
one reply character; with the input exhausted, `read` leaves `$REPLY`
empty, which does not match `^[Yy]$`, hence the `'n'` default. -/
def runLoop : List (List String) → List Char → List FSFile →
    List FSFile × List ScriptMsg
  | [], _, files => (files, [])
  | d :: ds, replies, files =>
    let r := replies.headD 'n'
    let (files2, msg) :=
      if confirms r then
        (deleteLogsAtDepthOne d files, ScriptMsg.deleted d)
      else
        (files, ScriptMsg.cancelled d)
    let (filesF, msgs) := runLoop ds replies.tail files2
    (filesF, msg :: msgs)

/-- The whole script on a file system, with the user's reply characters:
the directory list is computed once up front, then the loop runs. -/
def runRemoveLogs (fs : FileSystem) (replies : List Char) :
    FileSystem × List ScriptMsg :=
  let (files, msgs) := runLoop (logDirs fs.files) replies fs.files
  (⟨files, fs.dirs⟩, msgs)

/-- The sublist of the listed directories whose aligned reply character
confirms the deletion (`y`/`Y`). -/
def confirmedOf : List (List String) → List Char → List (List String)
  | [], _ => []
  | d :: ds, replies =>
    let rest := confirmedOf ds replies.tail
    if confirms (replies.headD 'n') then d :: rest else rest

/-- The directories the user confirms during a run of the script. -/
def confirmedDirs (fs : FileSystem) (replies : List Char) : List (List String) :=
  confirmedOf (logDirs fs.files) replies

/-- The file part of the loop, separated out for reasoning. -/
def runLoopFiles : List (List String) → List Char → List FSFile → List FSFile
  | [], _, files => files
  | d :: ds, replies, files =>
    runLoopFiles ds replies.tail
      (if confirms (replies.headD 'n') then deleteLogsAtDepthOne d files
       else files)

/-- The message part of the loop, separated out for reasoning. -/
def msgList : List (List String) → List Char → List ScriptMsg
  | [], _ => []
  | d :: ds, replies =>
    (if confirms (replies.headD 'n') then ScriptMsg.deleted d
     else ScriptMsg.cancelled d) :: msgList ds replies.tail

/-! ## Spec-modelled part: the `abses` package core

The Python source of the `abses` package is not part of the snapshot;
the definitions below are modelled from the specification prose
(`docs/features/*.md`, the JOSS paper draft, and the tutorials). -/

/-- Modelled from the spec: the three time-advancement modes of the
`TimeDriver` module (`docs/features` time control; the `abses` time
module itself is missing from the snapshot). -/
inductive TimeMode where
  | tick
  | duration
  | irregular
  deriving DecidableEq, Repr

/-- Modelled from the spec: the `TimeDriver` state — the current mode,
the counting ticker, the accumulated real-world model time, and the
fixed user-defined per-step interval used by `duration` mode.  Durations
are measured in an arbitrary integral unit. -/
structure TimeDriver where
  mode : TimeMode
  ticker : Nat
  elapsed : Nat
  interval : Nat
  deriving DecidableEq, Repr

/-- Modelled from the spec: a freshly started driver counts from zero in
the default `tick` mode. -/
def TimeDriver.start (interval : Nat) : TimeDriver :=
  { mode := TimeMode.tick, ticker := 0, elapsed := 0, interval := interval }

/-- Modelled from the spec: one simulation step.  `stepDuration` is the
user-assigned duration of this particular step, consulted only by
`irregular` mode; `tick` mode merely increments the counting ticker,
`duration` mode advances model time by the fixed interval. -/
def TimeDriver.step (td : TimeDriver) (stepDuration : Nat) : TimeDriver :=
  match td.mode with
  | TimeMode.tick =>
    { td with ticker := td.ticker + 1 }
  | TimeMode.duration =>
    { td with ticker := td.ticker + 1, elapsed := td.elapsed + td.interval }
  | TimeMode.irregular =>
    { td with ticker := td.ticker + 1, elapsed := td.elapsed + stepDuration }

/-- Modelled from the spec: a user sub-module attachable below a primary
module (`architectural_elegance` doc; the module classes themselves are
missing from the snapshot). -/
structure SubModule where
  name : String
  deriving DecidableEq, Repr

/-- Modelled from the spec: the `BaseHuman` primary module with its
attached sub-modules. -/
structure BaseHuman where
  submodules : List SubModule
  deriving DecidableEq, Repr

/-- Modelled from the spec: the `BaseNature` primary module with its
attached sub-modules. -/
structure BaseNature where
  submodules : List SubModule
  deriving DecidableEq, Repr

/-- Modelled from the spec: the two primary modules attached to the
`MainModel` root. -/
inductive PrimaryModule where
  | human
  | nature
  deriving DecidableEq, Repr

/-- Modelled from the spec: the `MainModel` root of the branch-leaf
composition, storing parameters and global variables, with the
`BaseHuman` and `BaseNature` branches attached. -/
structure MainModel (P V : Type) where
  parameters : P
  globalVars : V
  human : BaseHuman
  nature : BaseNature

/-- Modelled from the spec: a fresh model with no user sub-modules. -/
def MainModel.init (p : P) (v : V) : MainModel P V :=
  { parameters := p, globalVars := v
  , human := { submodules := [] }, nature := { submodules := [] } }

/-- Modelled from the spec: an attachment of one user sub-module below
one of the two primary modules. -/
inductive Attach where
  | toHuman (s : SubModule)
  | toNature (s : SubModule)
  deriving DecidableEq, Repr

/-- Modelled from the spec: attach one sub-module below the designated
primary module. -/
def MainModel.attach (m : MainModel P V) : Attach → MainModel P V
  | Attach.toHuman s =>
    { m with human := { submodules := m.human.submodules ++ [s] } }
  | Attach.toNature s =>
    { m with nature := { submodules := m.nature.submodules ++ [s] } }

/-- Modelled from the spec: assemble a model by attaching user
sub-modules, one by one, to a fresh model. -/
def MainModel.build (p : P) (v : V) (ops : List Attach) : MainModel P V :=
  ops.foldl MainModel.attach (MainModel.init p v)

/-- Modelled from the spec: an actor, registered in the container under
the name of its class ("breed"), with a unique id (the container source
is missing from the snapshot; behaviour as shown in
`docs/tutorial/beginner/get_started.ipynb`). -/
structure Actor where
  breed : String
  uid : Nat
  deriving DecidableEq, Repr

/-- Modelled from the spec: the model's unique `AgentsContainer` holding
all of the model's actors, grouped by breed. -/
structure AgentsContainer where
  actors : List Actor
  nextId : Nat
  deriving DecidableEq, Repr

/-- The container of a model with no actors yet. -/
def AgentsContainer.empty : AgentsContainer :=
  { actors := [], nextId := 0 }

/-- Modelled from the spec: register one freshly created actor of the
given breed. -/
def AgentsContainer.createOne (c : AgentsContainer) (breed : String) :
    AgentsContainer :=
  { actors := c.actors ++ [{ breed := breed, uid := c.nextId }]
  , nextId := c.nextId + 1 }

/-- Modelled from the spec: `model.agents.create(SomeBreed, n)` — create
and register `n` actors of one breed. -/
def AgentsContainer.create (c : AgentsContainer) (breed : String) :
    Nat → AgentsContainer
  | 0 => c
  | Nat.succ n => (c.createOne breed).create breed n

/-- The number of actors of one breed the container reports (the
`(5)Actor; (1)MyActor` display of the tutorial). -/
def AgentsContainer.countBreed (c : AgentsContainer) (breed : String) : Nat :=
  (c.actors.filter (fun a => a.breed = breed)).length

/-- Modelled from the spec: a dynamic variable is declared by supplying
a data source and a withdraw/update function of the source and the
current model time (`docs/features` auto-update dynamic variables; the
mechanism's source is missing from the snapshot). -/
structure DynamicVariable (σ α : Type) where
  source : σ
  withdraw : σ → Nat → α

/-- Modelled from the spec: a module holding a dynamic variable — the
current model time, the declaration, and the value the framework keeps
cached for reads. -/
structure DynModule (σ α : Type) where
  time : Nat
  var : DynamicVariable σ α
  cache : α

/-- Modelled from the spec: declaring the variable when setting up the
module withdraws the value at the setup time. -/
def DynModule.setup (v : DynamicVariable σ α) (t0 : Nat) : DynModule σ α :=
  { time := t0, var := v, cache := v.withdraw v.source t0 }

/-- Modelled from the spec: whenever model time advances, the framework
re-withdraws the dynamic variable at the new time — the user performs no
manual refresh. -/
def DynModule.advance (m : DynModule σ α) (dt : Nat) : DynModule σ α :=
  { time := m.time + dt, var := m.var
  , cache := m.var.withdraw m.var.source (m.time + dt) }

/-- Reading the dynamic variable returns the cached value as is: no
recalculation happens at read time. -/
def DynModule.read (m : DynModule σ α) : α :=
  m.cache

/-- A run of the module through a sequence of time advances. -/
def DynModule.run (m : DynModule σ α) (dts : List Nat) : DynModule σ α :=
  dts.foldl DynModule.advance m

/-- Modelled from the spec: the stages of the human-behaviour
decision-making workflow (`docs/features/MoHuB.md`; the workflow's
source is missing from the snapshot). -/
inductive DecisionStage where
  | decision
  | perception
  | evaluation
  | response
  deriving DecidableEq, Repr

/-- Modelled from the spec: the user-defined ingredients of one
decision workflow — the decision type defined first, the actor's
perception of the natural and social environment, the actor's chosen
evaluation method, and the behavioural response that may affect the
environment. -/
structure DecisionSetup (E P V : Type) where
  decisionType : String
  perceive : E → P
  evaluate : P → V
  respond : V → E → E

/-- The running state of one workflow execution: the environment, the
intermediate data produced so far, and the log of executed stages in
execution order. -/
structure CCRState (E P V : Type) where
  env : E
  perception : Option P
  evaluation : Option V
  log : List DecisionStage

/-- The workflow state before any stage has run. -/
def CCRState.begin (env : E) : CCRState E P V :=
  { env := env, perception := none, evaluation := none, log := [] }

/-- Modelled from the spec: stage 1 — the decision type is defined; the
environment is untouched. -/
def decisionStep (_ : DecisionSetup E P V) (s : CCRState E P V) :
    CCRState E P V :=
  { s with log := s.log ++ [DecisionStage.decision] }

/-- Modelled from the spec: stage 2 — the actor forms its perception of
the environment; the environment is untouched. -/
def perceptionStep (d : DecisionSetup E P V) (s : CCRState E P V) :
    CCRState E P V :=
  { s with perception := some (d.perceive s.env)
         , log := s.log ++ [DecisionStage.perception] }

/-- Modelled from the spec: stage 3 — the perception is evaluated under
the actor's chosen evaluation method; the environment is untouched. -/
def evaluationStep (d : DecisionSetup E P V) (s : CCRState E P V) :
    CCRState E P V :=
  { s with evaluation := s.perception.map d.evaluate
         , log := s.log ++ [DecisionStage.evaluation] }

/-- Modelled from the spec: stage 4 — the behavioural response executes
and is the only stage allowed to affect the environment. -/
def responseStep (d : DecisionSetup E P V) (s : CCRState E P V) :
    CCRState E P V :=
  { s with env := match s.evaluation with
                  | some v => d.respond v s.env
                  | none => s.env
         , log := s.log ++ [DecisionStage.response] }

/-- Modelled from the spec: the whole workflow for one acting agent,
stages run in the documented order. -/
def runCCR (d : DecisionSetup E P V) (env : E) : CCRState E P V :=
  responseStep d (evaluationStep d (perceptionStep d (decisionStep d (CCRState.begin env))))

/-- Modelled from the spec: the `time_condition` decorator — the
decorated method runs only when the supplied time condition holds at the
current model time, and otherwise performs no action (the decorator's
source is missing from the snapshot). -/
def time_condition (cond : Nat → Bool) (method : σ → σ) (t : Nat) (s : σ) : σ :=
  if cond t then method s else s

/-- A sample file system for exercising the script: `.log` files in two
directories, one nested below the other, plus an unrelated text file. -/
def sampleFS_A : FileSystem :=
  { files := [⟨["."], "a.log"⟩, ⟨[".", "sub"], "b.log"⟩, ⟨["."], "notes.txt"⟩]
  , dirs := [["."], [".", "sub"]] }

/-- A second sample file system, for exercising the per-directory
confirmation prompt. -/
def sampleFS_B : FileSystem :=
  { files := [⟨["."], "a.log"⟩, ⟨[".", "sub"], "b.log"⟩]
  , dirs := [["."], [".", "sub"]] }

/-! ## Helper lemmas about the `remove-logs.sh` model -/

theorem runLoop_eq (ds : List (List String)) (replies : List Char)
    (files : List FSFile) :
    runLoop ds replies files = (runLoopFiles ds replies files, msgList ds replies) := by
  induction ds generalizing replies files with
  | nil => rfl
  | cons d ds ih =>
    simp only [runLoop, runLoopFiles, msgList]
    by_cases hcp : confirms (replies.headD 'n') = true
    · simp only [if_pos hcp, ih]
    · simp only [if_neg hcp, ih]

theorem runLoopFiles_eq_filter (ds : List (List String)) (replies : List Char)
    (files : List FSFile) :
    runLoopFiles ds replies files =
      files.filter
        (fun f => !(decide (f.dir ∈ confirmedOf ds replies) && matchesLogGlob f.name)) := by
  induction ds generalizing replies files with
  | nil => simp [runLoopFiles, confirmedOf]
  | cons d ds ih =>
    simp only [runLoopFiles, confirmedOf]
    by_cases hcp : confirms (replies.headD 'n') = true
    · simp only [if_pos hcp, ih, deleteLogsAtDepthOne, List.filter_filter]
      apply List.filter_congr
      intro f _
      by_cases hd : f.dir = d <;>
        by_cases hm : f.dir ∈ confirmedOf ds replies.tail <;>
          cases hl : matchesLogGlob f.name <;>
            simp [hd, hm, hl]
    · simp only [if_neg hcp, ih]

/-- Pointwise description of a whole run: a file survives exactly when it
is not a depth-one `.log` file of a user-confirmed directory. -/
theorem mem_runRemoveLogs_iff (fs : FileSystem) (replies : List Char) (f : FSFile) :
    f ∈ (runRemoveLogs fs replies).1.files ↔
      f ∈ fs.files ∧
        ¬(f.dir ∈ confirmedDirs fs replies ∧ matchesLogGlob f.name = true) := by
  simp only [runRemoveLogs, runLoop_eq, runLoopFiles_eq_filter, confirmedDirs]
  simp [List.mem_filter, and_assoc]
  intro _
  by_cases hm : f.dir ∈ confirmedOf (logDirs fs.files) replies <;>
    cases hl : matchesLogGlob f.name <;> simp [hm, hl]

theorem confirmedOf_subset (ds : List (List String)) (replies : List Char) :
    confirmedOf ds replies ⊆ ds := by
  induction ds generalizing replies with
  | nil => simp [confirmedOf]
  | cons d ds ih =>
    intro x hx
    simp only [confirmedOf] at hx
    by_cases hc : confirms (replies.headD 'n') = true
    · rw [if_pos hc] at hx
      rcases List.mem_cons.1 hx with h | h
      · exact h ▸ List.mem_cons_self d ds
      · exact List.mem_cons_of_mem d (ih replies.tail h)
    · rw [if_neg hc] at hx
      exact List.mem_cons_of_mem d (ih replies.tail hx)

theorem tail_getD_char (l : List Char) (i : Nat) (c : Char) :
    l.tail.getD i c = l.getD (i + 1) c := by
  cases l <;> simp [List.getD]

theorem headD_eq_getD_zero (l : List Char) (c : Char) :
    l.headD c = l.getD 0 c := by
  cases l <;> rfl

theorem mem_confirmedOf_of_confirms (ds : List (List String)) (replies : List Char)
    (i : Nat) (hi : i < ds.length)
    (hc : confirms (replies.getD i 'n') = true) :
    ds.getD i [] ∈ confirmedOf ds replies := by
  induction ds generalizing replies i with
  | nil => simp at hi
  | cons d ds ih =>
    cases i with
    | zero =>
      simp only [confirmedOf, List.getD_cons_zero, headD_eq_getD_zero]
      rw [if_pos hc]
      exact List.mem_cons_self _ _
    | succ i =>
      have hi' : i < ds.length := Nat.lt_of_succ_lt_succ hi
      have hc' : confirms (replies.tail.getD i 'n') = true := by
        rw [tail_getD_char]; exact hc
      have hmem := ih replies.tail i hi' hc'
      simp only [confirmedOf, List.getD_cons_succ, headD_eq_getD_zero]
      by_cases h0 : confirms (replies.getD 0 'n') = true
      · rw [if_pos h0]; exact List.mem_cons_of_mem d hmem
      · rw [if_neg h0]; exact hmem

theorem not_mem_confirmedOf_of_not_confirms (ds : List (List String))
    (replies : List Char) (i : Nat) (hnd : ds.Nodup) (hi : i < ds.length)
    (hc : confirms (replies.getD i 'n') = false) :
    ds.getD i [] ∉ confirmedOf ds replies := by
  induction ds generalizing replies i with
  | nil => simp at hi
  | cons d ds ih =>
    have hdn : d ∉ ds := (List.nodup_cons.1 hnd).1
    have hnd' : ds.Nodup := (List.nodup_cons.1 hnd).2
    cases i with
    | zero =>
      simp only [confirmedOf, List.getD_cons_zero, headD_eq_getD_zero]
      have hne : ¬(confirms (replies.getD 0 'n') = true) := by
        rw [hc]; exact Bool.false_ne_true
      rw [if_neg hne]
      intro hmem
      exact hdn (confirmedOf_subset ds replies.tail hmem)
    | succ i =>
      have hi' : i < ds.length := Nat.lt_of_succ_lt_succ hi
      have hc' : confirms (replies.tail.getD i 'n') = false := by
        rw [tail_getD_char]; exact hc
      have helem : ds.getD i [] ∈ ds := by
        rw [List.getD_eq_getElem _ _ hi']
        exact List.getElem_mem _
      simp only [confirmedOf, List.getD_cons_succ, headD_eq_getD_zero]
      by_cases h0 : confirms (replies.getD 0 'n') = true
      · rw [if_pos h0]
        intro hmem
        rcases List.mem_cons.1 hmem with h | h
        · exact hdn (h ▸ helem)
        · exact ih replies.tail i hnd' hi' hc' h
      · rw [if_neg h0]
        exact ih replies.tail i hnd' hi' hc'

theorem msgList_getD (ds : List (List String)) (replies : List Char) (i : Nat)
    (hi : i < ds.length) :
    (msgList ds replies).getD i (ScriptMsg.cancelled []) =
      (if confirms (replies.getD i 'n') then ScriptMsg.deleted (ds.getD i [])
       else ScriptMsg.cancelled (ds.getD i [])) := by
  induction ds generalizing replies i with
  | nil => simp at hi
  | cons d ds ih =>
    cases i with
    | zero =>
      simp only [msgList, List.getD_cons_zero, headD_eq_getD_zero]
    | succ i =>
      have hi' : i < ds.length := Nat.lt_of_succ_lt_succ hi
      simp only [msgList, List.getD_cons_succ, ih replies.tail i hi', tail_getD_char]

theorem logDirs_nodup (files : List FSFile) : (logDirs files).Nodup :=
  List.nodup_dedup _

/-! ## Helper lemmas about the spec-modelled definitions -/

theorem attach_parameters (m : MainModel P V) (op : Attach) :
    (m.attach op).parameters = m.parameters := by
  cases op <;> rfl

theorem attach_globalVars (m : MainModel P V) (op : Attach) :
    (m.attach op).globalVars = m.globalVars := by
  cases op <;> rfl

theorem foldl_attach_parameters (ops : List Attach) (m : MainModel P V) :
    (ops.foldl MainModel.attach m).parameters = m.parameters := by
  induction ops generalizing m with
  | nil => rfl
  | cons op ops ih => rw [List.foldl_cons, ih, attach_parameters]

theorem foldl_attach_globalVars (ops : List Attach) (m : MainModel P V) :
    (ops.foldl MainModel.attach m).globalVars = m.globalVars := by
  induction ops generalizing m with
  | nil => rfl
  | cons op ops ih => rw [List.foldl_cons, ih, attach_globalVars]

theorem countBreed_createOne (c : AgentsContainer) (b b' : String) :
    (c.createOne b).countBreed b' =
      c.countBreed b' + (if b = b' then 1 else 0) := by
  simp only [AgentsContainer.createOne, AgentsContainer.countBreed,
    List.filter_append]
  by_cases h : b = b' <;> simp [h]

theorem run_var (m : DynModule σ α) (dts : List Nat) :
    (m.run dts).var = m.var := by
  induction dts generalizing m with
  | nil => rfl
  | cons dt dts ih =>
    simp only [DynModule.run, List.foldl_cons] at ih ⊢
    rw [ih]
    rfl

theorem run_cache (m : DynModule σ α) (dts : List Nat)
    (h : m.cache = m.var.withdraw m.var.source m.time) :
    (m.run dts).cache =
      m.var.withdraw m.var.source (m.run dts).time := by
  induction dts generalizing m with
  | nil => exact h
  | cons dt dts ih =>
    simp only [DynModule.run, List.foldl_cons] at ih ⊢
    have hstep : (m.advance dt).cache =
        (m.advance dt).var.withdraw (m.advance dt).var.source (m.advance dt).time := rfl
    have := ih (m.advance dt) hstep
    simpa [DynModule.advance] using this

/-! ## The claims -/

/-- Claim C1: the packaging metadata names and builds the `abses` Python
package, yet no file of the supplied source tree is Python code defining
it — the package's behaviour is described only through prose, notebooks
and documentation. -/
theorem sourceTree_has_no_abses_package :
    poetryMetadata.name = "abses" ∧
    poetryMetadata.buildBackend = "poetry.core.masonry.api" ∧
    sourceTree.all (fun f => !(definesPythonPackage f)) = true := by
  refine ⟨rfl, rfl, ?_⟩
  decide

/-- Claim C2, counterexample: contrary to the claim that all six of
Mesa, Mesa-Geo, xarray, pandas, GeoPandas and Hydra are declared direct
dependencies, neither `mesa` nor `pandas` occurs among the
`[tool.poetry.dependencies]` entries of `pyproject.toml`. -/
theorem mesa_and_pandas_not_declared :
    "mesa" ∉ poetryDependencies ∧ "pandas" ∉ poetryDependencies := by
  decide

/-- Claim C2, amended: of the six libraries, Mesa-Geo, xarray, GeoPandas
and Hydra (as `hydra-core`) are declared direct dependencies of the
package, while Mesa itself and pandas are not declared directly (they
arrive only transitively, through `mesa-geo`). -/
theorem declared_dependencies_of_six :
    "mesa-geo" ∈ poetryDependencies ∧
    "xarray" ∈ poetryDependencies ∧
    "geopandas" ∈ poetryDependencies ∧
    "hydra-core" ∈ poetryDependencies ∧
    "mesa" ∉ poetryDependencies ∧
    "pandas" ∉ poetryDependencies := by
  decide

/-- Claim C3: the time module has exactly the three advancement modes
`tick`, `duration` and `irregular`; a fresh driver defaults to `tick`;
a `tick` step increments the counting ticker by one and nothing else, a
`duration` step advances model time by the fixed user-defined interval,
and an `irregular` step advances model time by the duration assigned to
that particular step. -/
theorem timeDriver_three_modes :
    (∀ m : TimeMode,
       m = TimeMode.tick ∨ m = TimeMode.duration ∨ m = TimeMode.irregular) ∧
    (∀ i : Nat, (TimeDriver.start i).mode = TimeMode.tick) ∧
    (∀ t e i d : Nat,
       TimeDriver.step ⟨TimeMode.tick, t, e, i⟩ d = ⟨TimeMode.tick, t + 1, e, i⟩) ∧
    (∀ t e i d : Nat,
       TimeDriver.step ⟨TimeMode.duration, t, e, i⟩ d =
         ⟨TimeMode.duration, t + 1, e + i, i⟩) ∧
    (∀ t e i d : Nat,
       TimeDriver.step ⟨TimeMode.irregular, t, e, i⟩ d =
         ⟨TimeMode.irregular, t + 1, e + d, i⟩) := by
  refine ⟨?_, fun _ => rfl, fun _ _ _ _ => rfl, fun _ _ _ _ => rfl,
    fun _ _ _ _ => rfl⟩
  intro m
  cases m
  · exact Or.inl rfl
  · exact Or.inr (Or.inl rfl)
  · exact Or.inr (Or.inr rfl)

/-- Claim C4: a model is a branch-leaf composition — the `MainModel`
root stores the parameters and global variables however many sub-modules
are attached, the primary modules are exactly the two `BaseHuman` and
`BaseNature` branches, and user sub-modules attach below one of those
two branches. -/
theorem mainModel_branch_leaf :
    (∀ pm : PrimaryModule,
       pm = PrimaryModule.human ∨ pm = PrimaryModule.nature) ∧
    (PrimaryModule.human ≠ PrimaryModule.nature) ∧
    (∀ (P V : Type) (p : P) (v : V) (ops : List Attach),
       (MainModel.build p v ops).parameters = p ∧
       (MainModel.build p v ops).globalVars = v) ∧
    (∀ (P V : Type) (p : P) (v : V) (ops : List Attach) (s : SubModule),
       (MainModel.build p v (ops ++ [Attach.toHuman s])).human.submodules =
         (MainModel.build p v ops).human.submodules ++ [s] ∧
       (MainModel.build p v (ops ++ [Attach.toNature s])).nature.submodules =
         (MainModel.build p v ops).nature.submodules ++ [s]) := by
  refine ⟨?_, by simp, ?_, ?_⟩
  · intro pm
    cases pm
    · exact Or.inl rfl
    · exact Or.inr rfl
  · intro P V p v ops
    exact ⟨foldl_attach_parameters ops _, foldl_attach_globalVars ops _⟩
  · intro P V p v ops s
    constructor
    · rw [MainModel.build, MainModel.build, List.foldl_append]
      rfl
    · rw [MainModel.build, MainModel.build, List.foldl_append]
      rfl

/-- Claim C5: creating actors through the model's container registers
them grouped by breed — after creating `n` actors of a breed the
container reports `n` more actors of that breed, and the reported counts
of every other breed are unchanged. -/
theorem agentsContainer_create_counts (c : AgentsContainer) (breed : String)
    (n : Nat) :
    (c.create breed n).countBreed breed = c.countBreed breed + n ∧
    ∀ other : String, other ≠ breed →
      (c.create breed n).countBreed other = c.countBreed other := by
  induction n generalizing c with
  | zero => exact ⟨rfl, fun _ _ => rfl⟩
  | succ n ih =>
    constructor
    · rw [AgentsContainer.create, (ih (c.createOne breed)).1,
        countBreed_createOne, if_pos rfl]
      omega
    · intro other hne
      rw [AgentsContainer.create, (ih (c.createOne breed)).2 other hne,
        countBreed_createOne, if_neg (fun h => hne h.symm)]
      omega

/-- Witness for claim C5: the tutorial's example — creating 5 `Actor`
and then 1 `MyActor` in a fresh container yields a container reporting
`(5)Actor` and `(1)MyActor`. -/
theorem agentsContainer_create_counts_witness :
    ("MyActor" : String) ≠ "Actor" ∧
    ((AgentsContainer.empty.create "Actor" 5).create "MyActor" 1).countBreed
        "MyActor" = 1 ∧
    ((AgentsContainer.empty.create "Actor" 5).create "MyActor" 1).countBreed
        "Actor" = 5 := by
  refine ⟨by decide, ?_, ?_⟩
  · rw [(agentsContainer_create_counts
        (AgentsContainer.empty.create "Actor" 5) "MyActor" 1).1]
    decide
  · rw [(agentsContainer_create_counts
        (AgentsContainer.empty.create "Actor" 5) "MyActor" 1).2 "Actor"
        (by decide)]
    decide

/-- Claim C6: a variable declared dynamic — a data source plus a
withdraw function — is re-withdrawn automatically at every advance of
model time, so a read after any sequence of time advances returns the
withdraw function applied to the source at the current model time, with
no manual refresh in between. -/
theorem dynamicVariable_read_is_current (v : DynamicVariable σ α) (t0 : Nat)
    (dts : List Nat) :
    (DynModule.run (DynModule.setup v t0) dts).read =
      v.withdraw v.source (DynModule.run (DynModule.setup v t0) dts).time := by
  have hvar := run_var (DynModule.setup v t0) dts
  have hcache := run_cache (DynModule.setup v t0) dts rfl
  rw [DynModule.read, hcache]
  rfl

/-- Claim C7: the decision workflow runs its stages in the documented
order — decision type first, then perception of the environment, then
evaluation of that perception, and only then the behavioural response;
the environment is untouched until the response stage, where the
response of the evaluated perception is applied to it. -/
theorem ccr_workflow_order (d : DecisionSetup E P V) (env : E) :
    (runCCR d env).log =
      [DecisionStage.decision, DecisionStage.perception,
       DecisionStage.evaluation, DecisionStage.response] ∧
    (evaluationStep d (perceptionStep d (decisionStep d (CCRState.begin env)))).env
      = env ∧
    (runCCR d env).perception = some (d.perceive env) ∧
    (runCCR d env).evaluation = some (d.evaluate (d.perceive env)) ∧
    (runCCR d env).env = d.respond (d.evaluate (d.perceive env)) env :=
  ⟨rfl, rfl, rfl, rfl, rfl⟩

/-- Claim C10: a method decorated with `time_condition` executes exactly
when its time condition holds at the current model time; when the
condition fails there, invoking the decorated method performs no
action. -/
theorem time_condition_gates (cond : Nat → Bool) (method : σ → σ) (t : Nat)
    (s : σ) :
    (cond t = false → time_condition cond method t s = s) ∧
    (cond t = true → time_condition cond method t s = method s) := by
  constructor <;> intro h <;> simp [time_condition, h]

/-- Witness for claim C10: with the condition "the time is even" and the
successor method, the decorated method is inert at time 1 and acts at
time 2. -/
theorem time_condition_gates_witness :
    time_condition (fun t => decide (t % 2 = 0)) Nat.succ 1 5 = 5 ∧
    time_condition (fun t => decide (t % 2 = 0)) Nat.succ 2 5 = 6 :=
  ⟨(time_condition_gates (fun t => decide (t % 2 = 0)) Nat.succ 1 5).1
      (by decide),
   (time_condition_gates (fun t => decide (t % 2 = 0)) Nat.succ 2 5).2
      (by decide)⟩

/-- Claim C8: a run of the remove-logs script removes no directory, and
never deletes a file whose name does not end in `.log`; a file survives
whenever its own directory is not a confirmed listed directory (so
`.log` files in subdirectories of a confirmed directory are untouched),
and every deleted file is a `.log` file directly inside (depth one) a
directory the user confirmed. -/
theorem removeLogs_frame (fs : FileSystem) (replies : List Char) :
    (runRemoveLogs fs replies).1.dirs = fs.dirs ∧
    (∀ f, f ∈ fs.files → matchesLogGlob f.name = false →
       f ∈ (runRemoveLogs fs replies).1.files) ∧
    (∀ f, f ∈ fs.files → f.dir ∉ confirmedDirs fs replies →
       f ∈ (runRemoveLogs fs replies).1.files) ∧
    (∀ f, f ∈ fs.files → f ∉ (runRemoveLogs fs replies).1.files →
       matchesLogGlob f.name = true ∧ f.dir ∈ confirmedDirs fs replies) := by
  refine ⟨?_, ?_, ?_, ?_⟩
  · simp [runRemoveLogs, runLoop_eq]
  · intro f hf hlog
    rw [mem_runRemoveLogs_iff]
    refine ⟨hf, ?_⟩
    rintro ⟨_, hl⟩
    rw [hlog] at hl
    exact Bool.false_ne_true hl
  · intro f hf hdir
    rw [mem_runRemoveLogs_iff]
    refine ⟨hf, ?_⟩
    rintro ⟨hd, _⟩
    exact hdir hd
  · intro f hf hnot
    rw [mem_runRemoveLogs_iff] at hnot
    simp only [hf, true_and, not_not] at hnot
    exact ⟨hnot.2, hnot.1⟩

/-- Witness for claim C8: on the sample file system, confirming the
first directory leaves both directories in place, keeps the non-log
file `notes.txt`, and keeps the `.log` file that sits in the
subdirectory `./sub` (whose own prompt the exhausted input cancels). -/
theorem removeLogs_frame_witness :
    (runRemoveLogs sampleFS_A ['y']).1.dirs = sampleFS_A.dirs ∧
    (⟨["."], "notes.txt"⟩ : FSFile) ∈ (runRemoveLogs sampleFS_A ['y']).1.files ∧
    (⟨[".", "sub"], "b.log"⟩ : FSFile) ∈
      (runRemoveLogs sampleFS_A ['y']).1.files := by
  refine ⟨(removeLogs_frame sampleFS_A ['y']).1, ?_, ?_⟩
  · exact (removeLogs_frame sampleFS_A ['y']).2.1 ⟨["."], "notes.txt"⟩
      (by decide) (by decide)
  · exact (removeLogs_frame sampleFS_A ['y']).2.2.1 ⟨[".", "sub"], "b.log"⟩
      (by decide) (by decide)

/-- Claim C9: for the i-th directory the script lists, the depth-one
`.log` files inside it are removed if and only if the one-character
reply to its prompt is `y` or `Y`; on any other reply the script prints
the cancellation message for that directory and all of its files
survive. -/
theorem removeLogs_reply_iff (fs : FileSystem) (replies : List Char) (i : Nat)
    (hi : i < (logDirs fs.files).length) :
    (confirms (replies.getD i 'n') = true →
       (runRemoveLogs fs replies).2.getD i (ScriptMsg.cancelled []) =
         ScriptMsg.deleted ((logDirs fs.files).getD i []) ∧
       ∀ f, f ∈ fs.files → f.dir = (logDirs fs.files).getD i [] →
         matchesLogGlob f.name = true →
         f ∉ (runRemoveLogs fs replies).1.files) ∧
    (confirms (replies.getD i 'n') = false →
       (runRemoveLogs fs replies).2.getD i (ScriptMsg.cancelled []) =
         ScriptMsg.cancelled ((logDirs fs.files).getD i []) ∧
       ∀ f, f ∈ fs.files → f.dir = (logDirs fs.files).getD i [] →
         f ∈ (runRemoveLogs fs replies).1.files) := by
  have hmsgs : (runRemoveLogs fs replies).2 = msgList (logDirs fs.files) replies := by
    simp [runRemoveLogs, runLoop_eq]
  constructor
  · intro hc
    constructor
    · rw [hmsgs, msgList_getD _ _ _ hi, if_pos hc]
    · intro f hf hdir hlog hmem
      have hconf := mem_confirmedOf_of_confirms (logDirs fs.files) replies i hi hc
      rcases (mem_runRemoveLogs_iff fs replies f).1 hmem with ⟨_, hno⟩
      exact hno ⟨hdir.symm ▸ hconf, hlog⟩
  · intro hc
    have hne : ¬(confirms (replies.getD i 'n') = true) := by
      rw [hc]; exact Bool.false_ne_true
    constructor
    · rw [hmsgs, msgList_getD _ _ _ hi, if_neg hne]
    · intro f hf hdir
      rw [mem_runRemoveLogs_iff]
      refine ⟨hf, ?_⟩
      rintro ⟨hd, _⟩
      have hnc := not_mem_confirmedOf_of_not_confirms (logDirs fs.files) replies i
        (logDirs_nodup fs.files) hi hc
      exact hnc (hdir ▸ hd)

/-- Witness for claim C9: on the second sample file system with replies
`y` then `x`, the first directory's logs are deleted with the deletion
message, while the second directory gets the cancellation message and
its log file survives. -/
theorem removeLogs_reply_iff_witness :
    (runRemoveLogs sampleFS_B ['y', 'x']).2.getD 0 (ScriptMsg.cancelled []) =
      ScriptMsg.deleted ["."] ∧
    (⟨["."], "a.log"⟩ : FSFile) ∉ (runRemoveLogs sampleFS_B ['y', 'x']).1.files ∧
    (runRemoveLogs sampleFS_B ['y', 'x']).2.getD 1 (ScriptMsg.cancelled []) =
      ScriptMsg.cancelled [".", "sub"] ∧
    (⟨[".", "sub"], "b.log"⟩ : FSFile) ∈
      (runRemoveLogs sampleFS_B ['y', 'x']).1.files := by
  have h0 := removeLogs_reply_iff sampleFS_B ['y', 'x'] 0 (by decide)
  have h1 := removeLogs_reply_iff sampleFS_B ['y', 'x'] 1 (by decide)
  refine ⟨?_, ?_, ?_, ?_⟩
  · exact (h0.1 (by decide)).1
  · exact (h0.1 (by decide)).2 ⟨["."], "a.log"⟩ (by decide) (by decide) (by decide)
  · exact (h1.2 (by decide)).1
  · exact (h1.2 (by decide)).2 ⟨[".", "sub"], "b.log"⟩ (by decide) (by decide)

end ABSES
